import Mathlib

/-!
Shallow embedding of the credential-and-request core of the 1claw MCP
server (`src/client.ts` and the session router in the server entry file).

The stateful TypeScript class `OneClawClient` is embedded as explicit
state passing: each operation takes the current `ClientState`, the
current time(s) read by `Date.now()`, and the HTTP response(s) the
network would deliver, and returns the outcome together with the final
state and the number of token-exchange calls issued.  A JSON body is
modelled by what the two unvalidated `res.json()` casts would see of it
(`JsonBody`), since the source performs no schema validation.
-/

namespace OneClaw

/-- Embeds `OneClawApiError` (src/client.ts, lines 15-23): an error
carrying the HTTP status and a human-readable detail string. -/
structure OneClawApiError where
  status : Nat
  detail : String
deriving DecidableEq, Repr

/-- Embeds `ApiErrorBody` (src/types.ts): the error envelope
`{ type?, detail? }`; `none` models an absent field. -/
structure ApiErrorBody where
  type : Option String
  detail : Option String
deriving DecidableEq, Repr

/-- The two ways a response body can look to the unvalidated
`res.json()` casts in the source: a JSON document (seen both as an
error envelope and as the expected success shape `T`), or text that is
not valid JSON, on which `res.json()` rejects. -/
inductive JsonBody (T : Type) where
  | json (envelope : ApiErrorBody) (value : T)
  | notJson
deriving DecidableEq, Repr

/-- An HTTP response as the source observes it: a status code plus a
body. -/
structure HttpResponse (T : Type) where
  status : Nat
  body : JsonBody T
deriving DecidableEq, Repr

/-- `res.ok` of the fetch API: status in [200, 300). -/
def isOkStatus (s : Nat) : Bool := 200 ≤ s && s < 300

/-- Embeds the success shape of `POST /v1/auth/agent-token`
(src/client.ts, lines 98-101): `{ access_token, expires_in }`. -/
structure ExchangeTokenResponse where
  access_token : String
  expires_in : Int
deriving DecidableEq, Repr

/-- Errors the core can raise: a thrown `OneClawApiError`, or the
rejection of an un-caught `res.json()` on a malformed success body. -/
inductive CoreError where
  | api (e : OneClawApiError)
  | parse
deriving DecidableEq, Repr

/-- Embeds the agent-credential record stored on the client
(src/client.ts, line 52). -/
structure AgentCreds where
  agentId : String
  apiKey : String
deriving DecidableEq, Repr

/-- The mutable fields of `OneClawClient` (src/client.ts, lines 47-53). -/
structure ClientState where
  baseUrl : String
  token : String
  vaultId : String
  agentCredentials : Option AgentCreds
  tokenExpiresAt : Int
deriving DecidableEq, Repr

/-- Embeds `ClientConfig` (src/client.ts, lines 25-29). -/
structure ClientConfig where
  baseUrl : String
  token : String
  vaultId : String
deriving DecidableEq, Repr

/-- Embeds `AgentCredentials` (src/client.ts, lines 31-36). -/
structure AgentCredentials where
  baseUrl : String
  agentId : String
  apiKey : String
  vaultId : String
deriving DecidableEq, Repr

/-- Embeds `config.baseUrl.replace(/\/$/, "")` (src/client.ts, line 56):
the regex removes at most one trailing slash. -/
def dropTrailingSlash (s : String) : String :=
  if s.endsWith "/" then s.dropRight 1 else s

/-- The `OneClawClient` constructor (src/client.ts, lines 55-68) on a
static-token `ClientConfig` (no `agentId` field present). -/
def mkClientStatic (cfg : ClientConfig) : ClientState :=
  { baseUrl := dropTrailingSlash cfg.baseUrl
    token := cfg.token
    vaultId := cfg.vaultId
    agentCredentials := none
    tokenExpiresAt := 0 }

/-- The `OneClawClient` constructor (src/client.ts, lines 55-68) on an
`AgentCredentials` config (`"agentId" in config` holds): the token
starts empty and the credentials are stored for exchange. -/
def mkClientAgent (cfg : AgentCredentials) : ClientState :=
  { baseUrl := dropTrailingSlash cfg.baseUrl
    token := ""
    vaultId := cfg.vaultId
    agentCredentials := some ⟨cfg.agentId, cfg.apiKey⟩
    tokenExpiresAt := 0 }

/-- Embeds `REFRESH_BUFFER_MS = 60_000` (src/client.ts, line 45). -/
def REFRESH_BUFFER_MS : Int := 60000

/-- The idiom `let detail = \x7bHTTP status\x7d; if (body.detail) detail =
body.detail` and its twin for `type` (src/client.ts, lines 85-91 and
126-134): a JavaScript truthiness check, so an absent field or an empty
string keeps the fallback. -/
def truthyOr (fallback : String) : Option String → String
  | some s => if s = "" then fallback else s
  | none => fallback

/-- The best-effort extraction of a detail string from an error
response: parse failure or a missing/empty `detail` field falls back to
the synthetic string `HTTP <status>`. -/
def envelopeDetail {T : Type} (status : Nat) (body : JsonBody T) : String :=
  match body with
  | .json env _ => truthyOr ("HTTP " ++ toString status) env.detail
  | .notJson => "HTTP " ++ toString status

/-- The `type` field extraction in `request` (src/client.ts, lines
127-131): `errorType` starts as `""` and is overwritten only by a truthy
`body.type`. -/
def envelopeType {T : Type} (body : JsonBody T) : String :=
  match body with
  | .json env _ => truthyOr "" env.type
  | .notJson => ""

/-- Outcome of one `ensureToken` call: the thrown-or-returned result,
the client state after the call (unchanged when the call threw, since
the source assigns `token`/`tokenExpiresAt` only after a successful
parse), and how many token-exchange POSTs were issued (0 or 1). -/
structure EnsureResult where
  result : Except CoreError Unit
  state : ClientState
  exchangeCalls : Nat
deriving Repr

/-- Embeds `OneClawClient.ensureToken` (src/client.ts, lines 70-104).
`now` is the `Date.now()` read in the freshness check (line 72) and
`nowAfter` the one read when storing the new expiry (line 103); `resp`
is the response the exchange endpoint would return if called. -/
def ensureToken (st : ClientState) (now nowAfter : Int)
    (resp : HttpResponse ExchangeTokenResponse) : EnsureResult :=
  match st.agentCredentials with
  | none => ⟨.ok (), st, 0⟩
  | some _ =>
    if st.token ≠ "" ∧ now < st.tokenExpiresAt - REFRESH_BUFFER_MS then
      ⟨.ok (), st, 0⟩
    else if isOkStatus resp.status then
      match resp.body with
      | .json _ data =>
        ⟨.ok (), { st with
                    token := data.access_token
                    tokenExpiresAt := nowAfter + data.expires_in * 1000 }, 1⟩
      | .notJson => ⟨.error .parse, st, 1⟩
    else
      ⟨.error (.api ⟨resp.status,
          "Agent auth failed: " ++ envelopeDetail resp.status resp.body⟩), st, 1⟩

/-- The fixed 402 billing-upgrade guidance message (src/client.ts,
line 139). -/
def quotaExhaustedMsg : String :=
  "Quota exhausted. Ask your human to upgrade the plan, add prepaid credits, or enable x402 micropayments at https://1claw.xyz/settings/billing"

/-- The billing settings URL embedded in both rewritten messages. -/
def billingUrl : String := "https://1claw.xyz/settings/billing"

/-- The 403 resource-limit message builder (src/client.ts, line 149). -/
def resourceLimitMsg (detail : String) : String :=
  "Resource limit reached: " ++ detail ++
    ". Ask your human to upgrade the plan at https://1claw.xyz/settings/billing"

/-- Embeds the response-handling tail of `OneClawClient.request`
(src/client.ts, lines 125-157): classify a non-2xx response into an
`OneClawApiError` (with the 402 and 403-resource-limit detail
rewrites), return `none` for 204 without touching the body, and parse
any other 2xx body as the success value. -/
def handleResponse {T : Type} (resp : HttpResponse T) :
    Except CoreError (Option T) :=
  if isOkStatus resp.status then
    if resp.status = 204 then .ok none
    else
      match resp.body with
      | .json _ v => .ok (some v)
      | .notJson => .error .parse
  else
    let detail := envelopeDetail resp.status resp.body
    let errorType := envelopeType resp.body
    if resp.status = 402 then
      .error (.api ⟨402, quotaExhaustedMsg⟩)
    else if resp.status = 403 ∧ errorType = "resource_limit_exceeded" then
      .error (.api ⟨403, resourceLimitMsg detail⟩)
    else
      .error (.api ⟨resp.status, detail⟩)

/-- Embeds `OneClawClient.request` (src/client.ts, lines 118-158) end to
end: first `headers()` runs `ensureToken` (which may issue an exchange
call and may throw), then the primary response is classified by
`handleResponse`. -/
def request {T : Type} (st : ClientState) (now nowAfter : Int)
    (exchangeResp : HttpResponse ExchangeTokenResponse)
    (resp : HttpResponse T) :
    Except CoreError (Option T) × ClientState × Nat :=
  let step := ensureToken st now nowAfter exchangeResp
  match step.result with
  | .error e => (.error e, step.state, step.exchangeCalls)
  | .ok _ => (handleResponse resp, step.state, step.exchangeCalls)

/-- A sequence of `resolve()`-style calls on one client: each entry
supplies the two clock reads and the exchange response the environment
would deliver; the result is the final state and the total number of
exchange calls issued. -/
def runResolves (st : ClientState) :
    List (Int × Int × HttpResponse ExchangeTokenResponse) → ClientState × Nat
  | [] => (st, 0)
  | (n, n2, r) :: rest =>
    let step := ensureToken st n n2 r
    let tail := runResolves step.state rest
    (tail.1, step.exchangeCalls + tail.2)

/-- Embeds `SessionAuth` from the server entry file: the bearer token
and vault id extracted from a session's headers. -/
structure SessionAuth where
  token : String
  vaultId : String
deriving DecidableEq, Repr

/-- The `UserError` thrown by `resolveClient` when neither a session nor
a shared client exists; a distinct error type from `OneClawApiError`. -/
inductive RouterError where
  | unresolvedSession
deriving DecidableEq, Repr

/-- The failure modes observable by a tool invocation: a router-level
authentication failure, or an error propagated from the HTTP core. -/
inductive ToolCallError where
  | router (e : RouterError)
  | core (e : CoreError)
deriving DecidableEq, Repr

/-- Embeds `resolveClient` from the server entry file (lines 41-47): a
session gets its own fresh static-token client; otherwise the shared
client (stdio mode) is used; otherwise the call fails with the
authentication `UserError`. -/
def resolveClient (baseUrl : String) (sharedClient : Option ClientState)
    (session : Option SessionAuth) : Except RouterError ClientState :=
  match session with
  | some s => .ok (mkClientStatic ⟨baseUrl, s.token, s.vaultId⟩)
  | none =>
    match sharedClient with
    | some c => .ok c
    | none => .error .unresolvedSession

/-! ### Path encoding (src/client.ts, lines 38-43)

`encodePath` is `path.split("/").map(encodeURIComponent).join("/")`.
JavaScript's `split`/`join` are embedded over `List Char`, and
`encodeURIComponent` at the code-point level: a character outside the
unreserved set `A-Z a-z 0-9 - _ . ! ~ * ( )` and apostrophe is replaced
by the uppercase percent-encoding of its UTF-8 bytes. -/

/-- Uppercase hexadecimal digit of a value below 16 (16 and above
collapse onto the last arm; `utf8Bytes` only ever supplies 0-15). -/
def hexDigit : Nat → Char
  | 0 => '0' | 1 => '1' | 2 => '2' | 3 => '3'
  | 4 => '4' | 5 => '5' | 6 => '6' | 7 => '7'
  | 8 => '8' | 9 => '9' | 10 => 'A' | 11 => 'B'
  | 12 => 'C' | 13 => 'D' | 14 => 'E' | _ => 'F'

/-- The UTF-8 byte sequence of a Unicode code point. -/
def utf8Bytes (n : Nat) : List Nat :=
  if n < 128 then [n]
  else if n < 2048 then [192 + n / 64, 128 + n % 64]
  else if n < 65536 then [224 + n / 4096, 128 + (n / 64) % 64, 128 + n % 64]
  else [240 + n / 262144, 128 + (n / 4096) % 64, 128 + (n / 64) % 64, 128 + n % 64]

/-- `%XX` with uppercase hex digits for one byte. -/
def percentEncodeByte (b : Nat) : List Char :=
  ['%', hexDigit (b / 16), hexDigit (b % 16)]

/-- The characters `encodeURIComponent` leaves unescaped:
`A-Z a-z 0-9 - _ . ! ~ * ( )` and the apostrophe (U+0027). -/
def isUnreservedChar (c : Char) : Bool :=
  (65 ≤ c.toNat && c.toNat ≤ 90) || (97 ≤ c.toNat && c.toNat ≤ 122) ||
  (48 ≤ c.toNat && c.toNat ≤ 57) ||
  c == '-' || c == '_' || c == '.' || c == '!' || c == '~' || c == '*' ||
  c == '\x27' || c == '(' || c == ')'

/-- `encodeURIComponent` on one character. -/
def percentEncodeChar (c : Char) : List Char :=
  if isUnreservedChar c then [c]
  else (utf8Bytes c.toNat).flatMap percentEncodeByte

/-- `encodeURIComponent` over a whole segment. -/
def encodeURIComponentL (s : List Char) : List Char :=
  s.flatMap percentEncodeChar

/-- JavaScript's `s.split("/")`: e.g. `""` gives `[""]`, `"/"` gives
`["", ""]`, `"a/b"` gives `["a", "b"]`. The `[] => [[]]` arm of the
inner match is unreachable since the split never returns an empty
list. -/
def splitOnSlash : List Char → List (List Char)
  | [] => [[]]
  | c :: rest =>
    match splitOnSlash rest with
    | [] => [[]]
    | s :: ss => if c = '/' then [] :: s :: ss else (c :: s) :: ss

/-- JavaScript's `segments.join("/")`. -/
def joinSlash : List (List Char) → List Char
  | [] => []
  | [s] => s
  | s :: rest => s ++ '/' :: joinSlash rest

/-- Embeds `encodePath` (src/client.ts, lines 38-43) over `List Char`. -/
def encodePathL (s : List Char) : List Char :=
  joinSlash ((splitOnSlash s).map encodeURIComponentL)

/-- `encodePath` at the `String` boundary. -/
def encodePath (s : String) : String :=
  ⟨encodePathL s.data⟩

/-! ### Helper lemmas -/

theorem hexDigit_ne_slash : ∀ n < 16, hexDigit n ≠ '/' := by decide

theorem utf8Bytes_lt (n : Nat) (hn : n < 1114112) :
    ∀ b ∈ utf8Bytes n, b < 256 := by
  intro b hb
  unfold utf8Bytes at hb
  split at hb
  · simp at hb; omega
  · split at hb
    · simp at hb
      rcases hb with h | h <;> omega
    · split at hb
      · simp at hb
        rcases hb with h | h | h <;> omega
      · simp at hb
        rcases hb with h | h | h | h <;> omega

theorem slash_not_mem_percentEncodeByte (b : Nat) (hb : b < 256) :
    '/' ∉ percentEncodeByte b := by
  intro h
  unfold percentEncodeByte at h
  rcases List.mem_cons.mp h with h1 | h
  · exact absurd h1 (by decide)
  rcases List.mem_cons.mp h with h2 | h
  · exact hexDigit_ne_slash (b / 16) (by omega) h2.symm
  rcases List.mem_cons.mp h with h3 | h
  · exact hexDigit_ne_slash (b % 16) (by omega) h3.symm
  · exact absurd h (List.not_mem_nil '/')

theorem char_toNat_lt (c : Char) : c.toNat < 1114112 := by
  have h := c.valid
  unfold Char.toNat
  rcases h with h | h <;> omega

theorem slash_not_mem_percentEncodeChar (c : Char) :
    '/' ∉ percentEncodeChar c := by
  intro h
  unfold percentEncodeChar at h
  split at h
  · rename_i hc
    rw [List.mem_singleton] at h
    rw [← h] at hc
    exact absurd hc (by decide)
  · simp only [List.mem_flatMap] at h
    obtain ⟨b, hb, hmem⟩ := h
    exact slash_not_mem_percentEncodeByte b
      (utf8Bytes_lt c.toNat (char_toNat_lt c) b hb) hmem

theorem slash_not_mem_encodeURIComponentL (s : List Char) :
    '/' ∉ encodeURIComponentL s := by
  intro h
  simp only [encodeURIComponentL, List.mem_flatMap] at h
  obtain ⟨c, _, hmem⟩ := h
  exact slash_not_mem_percentEncodeChar c hmem

theorem splitOnSlash_ne_nil (l : List Char) : splitOnSlash l ≠ [] := by
  induction l with
  | nil => simp [splitOnSlash]
  | cons c rest ih =>
    unfold splitOnSlash
    split
    · simp
    · split <;> simp

theorem splitOnSlash_slash_cons (l : List Char) :
    splitOnSlash ('/' :: l) = [] :: splitOnSlash l := by
  cases h : splitOnSlash l with
  | nil => exact absurd h (splitOnSlash_ne_nil l)
  | cons s ss => simp [splitOnSlash, h]

theorem splitOnSlash_append (seg l : List Char) (s : List Char)
    (ss : List (List Char)) (hseg : '/' ∉ seg)
    (hl : splitOnSlash l = s :: ss) :
    splitOnSlash (seg ++ l) = (seg ++ s) :: ss := by
  induction seg with
  | nil => simpa using hl
  | cons c seg' ih =>
    have hc : c ≠ '/' := fun h => hseg (h ▸ List.mem_cons_self c seg')
    have ih' := ih (fun h => hseg (List.mem_cons_of_mem c h))
    simp only [List.cons_append]
    simp only [splitOnSlash, ih', hc, if_false]

theorem splitOnSlash_joinSlash (xs : List (List Char)) (hne : xs ≠ [])
    (hns : ∀ x ∈ xs, '/' ∉ x) :
    splitOnSlash (joinSlash xs) = xs := by
  induction xs with
  | nil => exact absurd rfl hne
  | cons x rest ih =>
    cases rest with
    | nil =>
      have hx : '/' ∉ x := hns x (List.mem_cons_self x [])
      have : splitOnSlash (x ++ ([] : List Char)) = (x ++ []) :: [] :=
        splitOnSlash_append x [] [] [] hx rfl
      simpa [joinSlash] using this
    | cons y ys =>
      have hx : '/' ∉ x := hns x (List.mem_cons_self _ _)
      have hrest : ∀ z ∈ y :: ys, '/' ∉ z :=
        fun z hz => hns z (List.mem_cons_of_mem x hz)
      have ihr := ih (by simp) hrest
      have hsl : splitOnSlash ('/' :: joinSlash (y :: ys)) =
          [] :: y :: ys := by
        rw [splitOnSlash_slash_cons, ihr]
      have := splitOnSlash_append x ('/' :: joinSlash (y :: ys)) [] (y :: ys) hx hsl
      simpa [joinSlash] using this

/-! ### Claim theorems -/

/-- C6: `encodePath` splits its input on `/` and percent-encodes each
segment independently before rejoining, so splitting the encoded path
on `/` recovers exactly the independently-encoded segments of the
input (segment boundaries are preserved, since an encoded segment never
contains `/`); in particular `"a b/c#d"` encodes to `"a%20b/c%23d"`. -/
theorem encodePath_segmentwise :
    (∀ s : List Char,
        splitOnSlash (encodePathL s) = (splitOnSlash s).map encodeURIComponentL) ∧
    encodePath "a b/c#d" = "a%20b/c%23d" := by
  constructor
  · intro s
    unfold encodePathL
    apply splitOnSlash_joinSlash
    · simp [splitOnSlash_ne_nil s]
    · intro x hx
      obtain ⟨seg, _, hseg⟩ := List.mem_map.mp hx
      rw [← hseg]
      exact slash_not_mem_encodeURIComponentL seg
  · rfl

/-- C3 (counterexample): the claim extends the 402 billing rewrite to
the token-exchange call, but a 402 from the exchange endpoint is
reported by `ensureToken` as `Agent auth failed: <envelope detail>`,
which is not the fixed billing-upgrade message. -/
theorem tokenExchange_402_keeps_detail :
    ensureToken ⟨"https://api.1claw.xyz", "", "v1", some ⟨"agent-1", "key-1"⟩, 0⟩
        0 0 ⟨402, .json ⟨none, some "Payment Required"⟩ ⟨"", 0⟩⟩ =
      ⟨.error (.api ⟨402, "Agent auth failed: Payment Required"⟩),
        ⟨"https://api.1claw.xyz", "", "v1", some ⟨"agent-1", "key-1"⟩, 0⟩, 1⟩ ∧
    "Agent auth failed: Payment Required" ≠ quotaExhaustedMsg := by
  exact ⟨rfl, by decide⟩

/-- C3 (amended): for every non-2xx response with status 402 handled by
the request executor (`request`'s response-classification path — not the
token-exchange path, which instead prefixes `Agent auth failed:` to the
envelope's own detail), the resulting error's detail is the fixed
billing-upgrade guidance message, regardless of the response body. -/
theorem request_402_billing_message (T : Type) (resp : HttpResponse T)
    (h : resp.status = 402) :
    handleResponse resp = .error (.api ⟨402, quotaExhaustedMsg⟩) := by
  unfold handleResponse
  rw [h]
  simp [isOkStatus]

/-- C3 witness. -/
theorem request_402_billing_message_witness :
    handleResponse (⟨402, .json ⟨some "x", some "ignored"⟩ ()⟩ : HttpResponse Unit) =
      .error (.api ⟨402, quotaExhaustedMsg⟩) :=
  request_402_billing_message Unit ⟨402, .json ⟨some "x", some "ignored"⟩ ()⟩ rfl

/-- C4: a 403 response whose envelope has type `resource_limit_exceeded`
produces an error whose detail embeds both the envelope's original
detail text and the billing-upgrade URL; a 403 whose (truthy) envelope
type is anything else keeps the envelope's detail, or the synthetic
`HTTP 403` fallback, unmodified. -/
theorem request_403_resource_limit :
    (∀ (T : Type) (resp : HttpResponse T) (env : ApiErrorBody) (v : T) (d : String),
        resp.status = 403 → resp.body = .json env v →
        env.type = some "resource_limit_exceeded" →
        env.detail = some d → d ≠ "" →
        handleResponse resp = .error (.api ⟨403, resourceLimitMsg d⟩) ∧
        d.data <:+: (resourceLimitMsg d).data ∧
        billingUrl.data <:+: (resourceLimitMsg d).data) ∧
    (∀ (T : Type) (resp : HttpResponse T) (env : ApiErrorBody) (v : T),
        resp.status = 403 → resp.body = .json env v →
        truthyOr "" env.type ≠ "resource_limit_exceeded" →
        handleResponse resp =
          .error (.api ⟨403, truthyOr "HTTP 403" env.detail⟩)) := by
  constructor
  · intro T resp env v d hs hb ht hd hne
    refine ⟨?_, ?_, ?_⟩
    · unfold handleResponse
      rw [hs, hb]
      simp [isOkStatus, envelopeType, envelopeDetail, ht, hd, truthyOr, hne]
    · exact ⟨"Resource limit reached: ".data,
        (". Ask your human to upgrade the plan at https://1claw.xyz/settings/billing").data,
        by simp [resourceLimitMsg]⟩
    · exact ⟨("Resource limit reached: " ++ d ++ ". Ask your human to upgrade the plan at ").data,
        [], by simp [resourceLimitMsg, billingUrl]⟩
  · intro T resp env v hs hb ht
    unfold handleResponse
    rw [hs, hb]
    simp [isOkStatus, envelopeType, envelopeDetail, ht]
    rfl

/-- C4 witness. -/
theorem request_403_resource_limit_witness :
    (handleResponse (⟨403, .json ⟨some "resource_limit_exceeded", some "too many vaults"⟩ ()⟩ :
        HttpResponse Unit) =
      .error (.api ⟨403, resourceLimitMsg "too many vaults"⟩) ∧
     ("too many vaults").data <:+: (resourceLimitMsg "too many vaults").data ∧
     billingUrl.data <:+: (resourceLimitMsg "too many vaults").data) ∧
    handleResponse (⟨403, .json ⟨some "forbidden", some "no access"⟩ ()⟩ :
        HttpResponse Unit) =
      .error (.api ⟨403, truthyOr "HTTP 403" (some "no access")⟩) :=
  ⟨request_403_resource_limit.1 Unit
      ⟨403, .json ⟨some "resource_limit_exceeded", some "too many vaults"⟩ ()⟩
      ⟨some "resource_limit_exceeded", some "too many vaults"⟩ () "too many vaults"
      rfl rfl rfl rfl (by decide),
   request_403_resource_limit.2 Unit
      ⟨403, .json ⟨some "forbidden", some "no access"⟩ ()⟩
      ⟨some "forbidden", some "no access"⟩ () rfl rfl (by decide)⟩

/-- C5: every non-2xx response handled by the request executor yields an
`OneClawApiError` carrying the original HTTP status code unmodified,
including the 402 and 403-resource-limit cases whose detail is
rewritten. -/
theorem request_error_preserves_status (T : Type) (resp : HttpResponse T)
    (h : isOkStatus resp.status = false) :
    ∃ detail, handleResponse resp = .error (.api ⟨resp.status, detail⟩) := by
  unfold handleResponse
  rw [h]
  simp only [Bool.false_eq_true, if_false]
  by_cases h402 : resp.status = 402
  · rw [if_pos h402]
    exact ⟨_, by rw [h402]⟩
  · rw [if_neg h402]
    by_cases h403 : resp.status = 403 ∧ envelopeType resp.body = "resource_limit_exceeded"
    · rw [if_pos h403]
      exact ⟨_, by rw [h403.1]⟩
    · rw [if_neg h403]
      exact ⟨_, rfl⟩

/-- C5 witness. -/
theorem request_error_preserves_status_witness :
    ∃ detail, handleResponse (⟨402, .json ⟨none, some "orig"⟩ ()⟩ : HttpResponse Unit) =
      .error (.api ⟨402, detail⟩) :=
  request_error_preserves_status Unit ⟨402, .json ⟨none, some "orig"⟩ ()⟩ (by decide)

/-- C7: a non-2xx response whose body is not valid JSON, or parses but
has no `detail` field, yields the synthetic fallback detail
`HTTP <status>` — unless the 402 or 403-resource-limit remapping
applies. -/
theorem request_fallback_detail (T : Type) (resp : HttpResponse T)
    (h : isOkStatus resp.status = false)
    (h402 : resp.status ≠ 402)
    (h403 : ¬(resp.status = 403 ∧ envelopeType resp.body = "resource_limit_exceeded"))
    (hbody : resp.body = .notJson ∨
      ∃ env v, resp.body = .json env v ∧ env.detail = none) :
    handleResponse resp =
      .error (.api ⟨resp.status, "HTTP " ++ toString resp.status⟩) := by
  unfold handleResponse
  rw [h]
  simp only [Bool.false_eq_true, if_false]
  rw [if_neg h402, if_neg h403]
  rcases hbody with hb | ⟨env, v, hb, hd⟩
  · rw [hb]
    rfl
  · rw [hb]
    simp [envelopeDetail, hd, truthyOr]

/-- C7 witness. -/
theorem request_fallback_detail_witness :
    handleResponse (⟨500, (.notJson : JsonBody Unit)⟩ : HttpResponse Unit) =
      .error (.api ⟨500, "HTTP " ++ toString 500⟩) :=
  request_fallback_detail Unit ⟨500, .notJson⟩ (by decide) (by decide)
    (by decide) (Or.inl rfl)

/-- C8: a 204 response resolves to a void success for every body (no
parse attempt); any other 2xx response parses the body as the success
value, and a non-JSON body in that branch is a fatal parse error. -/
theorem request_success_handling :
    (∀ (T : Type) (body : JsonBody T), handleResponse ⟨204, body⟩ = .ok none) ∧
    (∀ (T : Type) (resp : HttpResponse T) (env : ApiErrorBody) (v : T),
        isOkStatus resp.status = true → resp.status ≠ 204 →
        resp.body = .json env v →
        handleResponse resp = .ok (some v)) ∧
    (∀ (T : Type) (resp : HttpResponse T),
        isOkStatus resp.status = true → resp.status ≠ 204 →
        resp.body = .notJson →
        handleResponse resp = .error .parse) := by
  refine ⟨fun T body => rfl, ?_, ?_⟩
  · intro T resp env v hok h204 hb
    unfold handleResponse
    rw [hok, if_pos rfl, if_neg h204, hb]
  · intro T resp hok h204 hb
    unfold handleResponse
    rw [hok, if_pos rfl, if_neg h204, hb]

/-- C8 witness. -/
theorem request_success_handling_witness :
    handleResponse (⟨204, (.notJson : JsonBody Nat)⟩ : HttpResponse Nat) = .ok none ∧
    handleResponse (⟨200, .json ⟨none, none⟩ (7 : Nat)⟩ : HttpResponse Nat) =
      .ok (some 7) ∧
    handleResponse (⟨200, (.notJson : JsonBody Nat)⟩ : HttpResponse Nat) =
      .error .parse :=
  ⟨request_success_handling.1 Nat .notJson,
   request_success_handling.2.1 Nat ⟨200, .json ⟨none, none⟩ 7⟩ ⟨none, none⟩ 7
      (by decide) (by decide) rfl,
   request_success_handling.2.2 Nat ⟨200, .notJson⟩ (by decide) (by decide) rfl⟩

/-- C1: for an exchangeable-identity client, (a) the first `ensureToken`
call issues exactly one exchange call (the constructor leaves the token
empty, so the freshness check cannot pass); (b) a call made while a
non-empty token is cached and the clock reads strictly less than
`tokenExpiresAt - REFRESH_BUFFER_MS` issues zero exchange calls and
leaves the state unchanged; (c) a call made at or after that instant
issues exactly one exchange call and, on a 2xx JSON exchange response,
replaces both the token value and the expiry with those of the
response. -/
theorem ensureToken_refresh_protocol :
    (∀ (cfg : AgentCredentials) (now nowAfter : Int)
        (resp : HttpResponse ExchangeTokenResponse),
        (ensureToken (mkClientAgent cfg) now nowAfter resp).exchangeCalls = 1) ∧
    (∀ (st : ClientState) (now nowAfter : Int)
        (resp : HttpResponse ExchangeTokenResponse),
        st.agentCredentials.isSome = true →
        st.token ≠ "" →
        now < st.tokenExpiresAt - REFRESH_BUFFER_MS →
        ensureToken st now nowAfter resp = ⟨.ok (), st, 0⟩) ∧
    (∀ (st : ClientState) (now nowAfter : Int)
        (resp : HttpResponse ExchangeTokenResponse)
        (env : ApiErrorBody) (data : ExchangeTokenResponse),
        st.agentCredentials.isSome = true →
        st.tokenExpiresAt - REFRESH_BUFFER_MS ≤ now →
        resp.body = .json env data →
        isOkStatus resp.status = true →
        ensureToken st now nowAfter resp =
          ⟨.ok (), { st with
                      token := data.access_token
                      tokenExpiresAt := nowAfter + data.expires_in * 1000 }, 1⟩) := by
  refine ⟨?_, ?_, ?_⟩
  · intro cfg now nowAfter resp
    unfold ensureToken mkClientAgent
    simp only
    rw [if_neg (by simp)]
    by_cases hok : isOkStatus resp.status
    · rw [if_pos hok]
      cases resp.body <;> rfl
    · rw [if_neg hok]
  · intro st now nowAfter resp hsome htok hlt
    obtain ⟨creds, hc⟩ := Option.isSome_iff_exists.mp hsome
    unfold ensureToken
    rw [hc]
    simp only
    rw [if_pos ⟨htok, hlt⟩]
  · intro st now nowAfter resp env data hsome hge hb hok
    obtain ⟨creds, hc⟩ := Option.isSome_iff_exists.mp hsome
    unfold ensureToken
    rw [hc]
    simp only
    rw [if_neg (fun hcl => absurd hcl.2 (not_lt.mpr hge)), if_pos hok, hb]

/-- C1 witness. -/
theorem ensureToken_refresh_protocol_witness :
    (ensureToken (mkClientAgent ⟨"https://api.1claw.xyz", "a1", "k1", "v1"⟩) 0 0
        ⟨200, .json ⟨none, none⟩ ⟨"tok", 3600⟩⟩).exchangeCalls = 1 ∧
    ensureToken ⟨"b", "tok", "v1", some ⟨"a1", "k1"⟩, 1000000⟩ 0 5
        ⟨200, .json ⟨none, none⟩ ⟨"t2", 60⟩⟩ =
      ⟨.ok (), ⟨"b", "tok", "v1", some ⟨"a1", "k1"⟩, 1000000⟩, 0⟩ ∧
    ensureToken ⟨"b", "tok", "v1", some ⟨"a1", "k1"⟩, 1000000⟩ 940000 940001
        ⟨200, .json ⟨none, none⟩ ⟨"t2", 60⟩⟩ =
      ⟨.ok (), ⟨"b", "t2", "v1", some ⟨"a1", "k1"⟩, 940001 + 60 * 1000⟩, 1⟩ :=
  ⟨ensureToken_refresh_protocol.1 ⟨"https://api.1claw.xyz", "a1", "k1", "v1"⟩ 0 0
      ⟨200, .json ⟨none, none⟩ ⟨"tok", 3600⟩⟩,
   ensureToken_refresh_protocol.2.1 ⟨"b", "tok", "v1", some ⟨"a1", "k1"⟩, 1000000⟩
      0 5 ⟨200, .json ⟨none, none⟩ ⟨"t2", 60⟩⟩ rfl (by decide) (by decide),
   ensureToken_refresh_protocol.2.2 ⟨"b", "tok", "v1", some ⟨"a1", "k1"⟩, 1000000⟩
      940000 940001 ⟨200, .json ⟨none, none⟩ ⟨"t2", 60⟩⟩ ⟨none, none⟩ ⟨"t2", 60⟩
      rfl (by decide) rfl (by decide)⟩

/-- For a client with no agent credentials, `ensureToken` is the
identity and issues no exchange call, whatever the clock or the
environment would answer. -/
theorem ensureToken_static (st : ClientState)
    (hstatic : st.agentCredentials = none) (now nowAfter : Int)
    (resp : HttpResponse ExchangeTokenResponse) :
    ensureToken st now nowAfter resp = ⟨.ok (), st, 0⟩ := by
  unfold ensureToken
  rw [hstatic]

/-- Iterating `resolve()` on a credential-less client never changes the
state and never issues an exchange call. -/
theorem runResolves_static (st : ClientState)
    (hstatic : st.agentCredentials = none) :
    ∀ inputs, runResolves st inputs = (st, 0) := by
  intro inputs
  induction inputs with
  | nil => rfl
  | cons p rest ih =>
    obtain ⟨n, n2, r⟩ := p
    unfold runResolves
    rw [ensureToken_static st hstatic n n2 r]
    simp only
    rw [ih]
    simp

/-- C2: a client constructed from a static-token config returns exactly
the configured token on every `resolve()` call — any number of calls,
under any clock readings and any environment responses — with zero
exchange calls ever issued and the state never changing. -/
theorem staticToken_resolve_constant :
    ∀ (cfg : ClientConfig)
      (inputs : List (Int × Int × HttpResponse ExchangeTokenResponse)),
      runResolves (mkClientStatic cfg) inputs = (mkClientStatic cfg, 0) ∧
      (mkClientStatic cfg).token = cfg.token ∧
      (∀ (now nowAfter : Int) (resp : HttpResponse ExchangeTokenResponse),
        ensureToken (mkClientStatic cfg) now nowAfter resp =
          ⟨.ok (), mkClientStatic cfg, 0⟩) := by
  intro cfg inputs
  refine ⟨runResolves_static _ rfl inputs, rfl, fun now nowAfter resp => ?_⟩
  exact ensureToken_static _ rfl now nowAfter resp

/-- C9: the session router gives a session its own fresh static-token
client built from the session's credentials; with no session it falls
back to the shared client; with neither it fails with the
`UserError`-based authentication error, which is a different
constructor of the tool-call error type than any upstream core error. -/
theorem resolveClient_routing :
    (∀ (baseUrl : String) (sh : Option ClientState) (s : SessionAuth),
        resolveClient baseUrl sh (some s) =
          .ok (mkClientStatic ⟨baseUrl, s.token, s.vaultId⟩)) ∧
    (∀ (baseUrl : String) (c : ClientState),
        resolveClient baseUrl (some c) none = .ok c) ∧
    (∀ baseUrl : String,
        resolveClient baseUrl none none = .error .unresolvedSession) ∧
    (∀ e : CoreError, ToolCallError.router .unresolvedSession ≠ .core e) := by
  refine ⟨fun _ _ _ => rfl, fun _ _ => rfl, fun _ => rfl, fun e h => ?_⟩
  exact ToolCallError.noConfusion h

/-- C10: when the exchange call is actually made (empty or stale token)
and the exchange endpoint answers non-2xx, `ensureToken` throws an
`OneClawApiError` whose detail is the envelope's detail prefixed with
`Agent auth failed: `, and the cached token value and expiry are
exactly what they were before the call. -/
theorem ensureToken_error_atomic (st : ClientState) (now nowAfter : Int)
    (resp : HttpResponse ExchangeTokenResponse)
    (hsome : st.agentCredentials.isSome = true)
    (hrefresh : ¬(st.token ≠ "" ∧ now < st.tokenExpiresAt - REFRESH_BUFFER_MS))
    (hfail : isOkStatus resp.status = false) :
    ensureToken st now nowAfter resp =
      ⟨.error (.api ⟨resp.status,
          "Agent auth failed: " ++ envelopeDetail resp.status resp.body⟩), st, 1⟩ ∧
    (ensureToken st now nowAfter resp).state.token = st.token ∧
    (ensureToken st now nowAfter resp).state.tokenExpiresAt = st.tokenExpiresAt := by
  obtain ⟨creds, hc⟩ := Option.isSome_iff_exists.mp hsome
  have heq : ensureToken st now nowAfter resp =
      ⟨.error (.api ⟨resp.status,
          "Agent auth failed: " ++ envelopeDetail resp.status resp.body⟩), st, 1⟩ := by
    unfold ensureToken
    rw [hc]
    simp only
    rw [if_neg hrefresh, if_neg (by rw [hfail]; exact Bool.false_ne_true)]
  exact ⟨heq, by rw [heq], by rw [heq]⟩

/-- C10 witness. -/
theorem ensureToken_error_atomic_witness :
    ensureToken ⟨"b", "old", "v1", some ⟨"a1", "k1"⟩, 50000⟩ 100000 100001
        ⟨500, .notJson⟩ =
      ⟨.error (.api ⟨500, "Agent auth failed: " ++
          envelopeDetail 500 (.notJson : JsonBody ExchangeTokenResponse)⟩),
        ⟨"b", "old", "v1", some ⟨"a1", "k1"⟩, 50000⟩, 1⟩ ∧
    (ensureToken ⟨"b", "old", "v1", some ⟨"a1", "k1"⟩, 50000⟩ 100000 100001
        ⟨500, .notJson⟩).state.token = "old" ∧
    (ensureToken ⟨"b", "old", "v1", some ⟨"a1", "k1"⟩, 50000⟩ 100000 100001
        ⟨500, .notJson⟩).state.tokenExpiresAt = 50000 :=
  ensureToken_error_atomic ⟨"b", "old", "v1", some ⟨"a1", "k1"⟩, 50000⟩
    100000 100001 ⟨500, .notJson⟩ rfl (by decide) (by decide)

end OneClaw
